import Mathlib

/-!
Verification of the qri-io/value repository: the dynamic value model
(`value.go`), the filter lexer (`scanner.go`), the filter parser
(`parser.go` / `token.go`) and the filter evaluator (`filter.go`).

Go's `float64` is modelled by `Rat`: every numeric value appearing in the
verified properties is a small integer, which `float64` represents exactly,
and the only arithmetic performed by the code on floats is one `*` or one `+`.
Go strings are modelled by Lean `String`; the byte-level operations
(`len`, `s[i]`, `s[a:b]`) are modelled on the character list, which agrees
with the Go byte view for ASCII text (all text in the verified properties
is ASCII).
-/

namespace QriValue

/-- Go `reflect.Kind`, restricted to the kinds that the dynamic values of this
repository can actually have.  Only `float64` is ever compared against by the
code (`filter.go`, `fBinaryOp.apply`). -/
inductive RKind where
  | float64
  | stringK
  | intK
  | boolK
  | uint8K
  | sliceK
  | mapK
  | otherK
deriving DecidableEq, Repr

/-- `tokenType` from `token.go` (the token enumeration of the filter lexer). -/
inductive TokT where
  | illegalTok
  | tEOF
  | tText
  | tNumber
  | tDot
  | tComma
  | tColon
  | tPipe
  | tLeftBracket
  | tRightBracket
  | tLeftBrace
  | tRightBrace
  | tLeftParen
  | tRightParen
  | tPlus
  | tMinus
  | tStar
  | tForwardSlash
  | tLength
deriving DecidableEq, Repr

/-- `token` from `token.go`.  The scanner never updates its `line`/`col`/
`offset` fields (a `TODO` in the source), so every token carries the zero
position and the position struct is omitted here. -/
structure Tok where
  type : TokT
  text : String
deriving DecidableEq, Repr

/-- The universal dynamic `Value` of `value.go`, as a closed tagged union.

Scalar: `null` (Go `nil`), `bool`, `byte` (uint8), `int`, `float` (float64),
`bytes` (`[]byte`), `str`.
Compound: `seq` (`[]interface{}`), `mapS` (`map[string]interface{}`),
`mapV` (`map[interface{}]interface{}`).
Complex: `link` (the `*link` of `value.go`), `mapCap` (a value satisfying the
`value.Map` capability, modelled by the graph of its `ValueForKey` method:
key, result value, and the error the lookup returns), `iter` (the generic
`*iterator` of `value.go`: cursor `i`, backing slice `values`), `byteReader`
(an `io.ReadCloser` over the listed bytes), `stream` (the `*valueStream` of
`parser.go`: fields `i`, `done`, `val`, `vals`).

`numericLit` / `stringLit` are the filter-node wrapper types
`fNumericLiteral` / `fStringLiteral` of `filter.go`, which escape into the
value world (`fNumericLiteral.apply` returns the wrapper itself). -/
inductive Value where
  | null
  | bool (b : Bool)
  | byte (b : Nat)
  | int (n : Int)
  | float (q : Rat)
  | bytes (bs : List Nat)
  | str (s : String)
  | seq (vs : List Value)
  | mapS (entries : List (String × Value))
  | mapV (entries : List (Value × Value))
  | link (path : String) (cached : Value) (resolved : Bool)
  | mapCap (entries : List (String × Value × Option String))
  | iter (i : Int) (values : List Value)
  | byteReader (bs : List Nat)
  | stream (i : Nat) (done : Bool) (val : Value) (vals : Option (List Value))
  | numericLit (q : Rat)
  | stringLit (s : String)

/-- The filter-node tagged union of `filter.go`.  One constructor per node
type; `fnil` represents a Go `nil` `filter` interface value (the parser can
produce one, e.g. as the left operand passed to `parseBinaryOp` from
`readOneFilter`). -/
inductive Filter where
  | fnil
  | strLit (s : String)
  | numLit (q : Rat)
  | length
  | chain (sels : List Filter)
  | identity
  | keySel (k : String)
  | indexSel (n : Int)
  | iterAll (b : Bool)
  | rangeSel (start stop : Int) (all : Bool)
  | binOp (left : Filter) (op : TokT) (right : Filter)
  | fSlice (fs : List Filter)
  | objMap (entries : List (String × Filter))

/-- Errors (and crashes) an evaluation can produce.  Go returns `error`
values built by `fmt.Errorf`; the constructors here carry the same data the
format verbs would print.  `panicked` is a Go runtime panic — it is NOT an
error return and aborts the program; the code paths that panic are modelled
by this constructor.  `outOfFuel` is an artifact of the embedding: the
recursion fuel ran out (it never occurs at the fuel values used in the
theorems below). -/
inductive EvalErr where
  | unexpectedType (v : Value)
  | unrecognizedType (v : Value)
  | binOpUnsupported (l : Value) (op : TokT) (r : Value)
  | readEOF
  | panicked (msg : String)
  | outOfFuel

/-- Errors of the parser.  `eofErr` is Go's `io.EOF`. -/
inductive PErr where
  | eofErr
  | unexpectedTokT (t : TokT)
  | unexpectedTok (t : Tok)
  | unexpectedStr (s : String)
  | numErr (s : String)
  | outOfFuel
deriving DecidableEq, Repr

/-- An ambient resolver: `value.Resolver` fetches the value a link's path
points to.  The resolver is an external collaborator; it is modelled as an
arbitrary function from the link's path. -/
def Resolver : Type := String → Except EvalErr Value

/-! ## Lexer (`scanner.go`)

The rune stream is modelled by a `List Char`; `read` takes the head,
`unread` leaves it in place, `Peek(1)` looks at the head without consuming.
At the end of input Go's `read` yields the marker rune `eof` without
consuming, and `isNumericByte(byte(eof))` is false, so the `[]` cases below
mirror the end-of-input behaviour exactly. -/

/-- `isNumericByte` from `scanner.go`: ASCII digits and the dot. -/
def isNumericByte (c : Char) : Bool :=
  c = '0' ∨ c = '1' ∨ c = '2' ∨ c = '3' ∨ c = '4' ∨ c = '5' ∨ c = '6' ∨
  c = '7' ∨ c = '8' ∨ c = '9' ∨ c = '.'

/-- The word-character class of `scanner.go`'s `literalMatch` regexp
`[\w\n_\-]`: letters, digits, underscore, newline, hyphen. -/
def isLiteralChar (c : Char) : Bool :=
  c.isAlpha ∨ c.isDigit ∨ c = '_' ∨ c = '\n' ∨ c = '-'

/-- A Go `unicode.IsSpace` character (the ASCII part, which is all the
scanner can meet in practice). -/
def isSpaceChar (c : Char) : Bool :=
  c = ' ' ∨ c = '\t' ∨ c = '\n' ∨ c = '\r' ∨ c = '\x0b' ∨ c = '\x0c'

/-- Go `strings.TrimSpace`: drop whitespace from both ends. -/
def goTrimSpace (s : String) : String :=
  String.mk (((s.toList.dropWhile isSpaceChar).reverse.dropWhile isSpaceChar).reverse)

/-- `scanner.scanNumber`: greedily consume numeric bytes, accumulating them
in `acc` (the `strings.Builder`), and emit a number token.  The token text
goes through `strings.TrimSpace`, which is the identity on numeric text. -/
def scanNumber (acc : String) : List Char → Tok × List Char
  | [] => (⟨.tNumber, acc⟩, [])
  | c :: rest =>
    if isNumericByte c then scanNumber (acc.push c) rest
    else (⟨.tNumber, acc⟩, c :: rest)

/-- `scanner.scanLiteral`: consume word characters, then emit a text token
(`newTextTok`, whose text is `strings.TrimSpace` of the accumulator). -/
def scanLiteral (acc : String) : List Char → Tok × List Char
  | [] => (⟨.tText, goTrimSpace acc⟩, [])
  | c :: rest =>
    if isLiteralChar c then scanLiteral (acc.push c) rest
    else (⟨.tText, goTrimSpace acc⟩, c :: rest)

/-- `scanner.scanQuotedText`: consume runes verbatim until the closing quote
or end of input; the quotes themselves are not part of the token text. -/
def scanQuotedText (acc : String) : List Char → Tok × List Char
  | [] => (⟨.tText, goTrimSpace acc⟩, [])
  | c :: rest =>
    if c = '"' then (⟨.tText, goTrimSpace acc⟩, rest)
    else scanQuotedText (acc.push c) rest

/-- `scanner.Scan` from `scanner.go`: read one token.  Note that in the `.`
and `-` cases the scanner peeks at the next byte and, when it is numeric,
calls `scanNumber` WITHOUT unreading (and without writing the `.`/`-` to the
text builder), so the leading `.`/`-` is dropped from the number token's
text; in the digit case it unreads first, so the digit is kept. -/
def scan : List Char → Tok × List Char
  | [] => (⟨.tEOF, ""⟩, [])
  | c :: rest =>
    match c with
    | '\r' => scan rest
    | ' ' => scan rest
    | '|' => (⟨.tPipe, ""⟩, rest)
    | '[' => (⟨.tLeftBracket, ""⟩, rest)
    | ']' => (⟨.tRightBracket, ""⟩, rest)
    | '(' => (⟨.tLeftParen, ""⟩, rest)
    | ')' => (⟨.tRightParen, ""⟩, rest)
    | '{' => (⟨.tLeftBrace, ""⟩, rest)
    | '}' => (⟨.tRightBrace, ""⟩, rest)
    | ':' => (⟨.tColon, ""⟩, rest)
    | '.' =>
      match rest with
      | p :: _ => if isNumericByte p then scanNumber "" rest else (⟨.tDot, ""⟩, rest)
      | [] => (⟨.tDot, ""⟩, rest)
    | ',' => (⟨.tComma, ""⟩, rest)
    | '+' => (⟨.tPlus, ""⟩, rest)
    | '-' =>
      match rest with
      | p :: _ => if isNumericByte p then scanNumber "" rest else (⟨.tMinus, ""⟩, rest)
      | [] => (⟨.tMinus, ""⟩, rest)
    | '*' => (⟨.tStar, ""⟩, rest)
    | '/' => (⟨.tForwardSlash, ""⟩, rest)
    | '"' => scanQuotedText "" rest
    | other =>
      if isNumericByte other ∧ other ≠ '.' then
        -- a leading digit: unread, then scanNumber (the digit is re-read)
        scanNumber "" (c :: rest)
      else
        -- any other rune: write it to the builder, then scanLiteral
        scanLiteral (String.singleton other) rest

/-! ## The value model (`value.go`) -/

/-- `iterator.Next` from `value.go`: the cursor `i` starts at `-1`
(`NewIterator`); `Next` returns false iff `i >= len(values)-1`, otherwise
increments the cursor.  The returned pair is (result of `Next`, new cursor). -/
def iterNext (i : Int) (values : List Value) : Bool × Int :=
  if i ≥ (values.length : Int) - 1 then (false, i) else (true, i + 1)

/-- `iterator.Close` from `value.go`: it returns `nil` and changes nothing —
the generic iterator has no termination state at all. -/
def iterClose (i : Int) (values : List Value) : Option String × Int :=
  (none, i)

/-- `iterator.Key` from `value.go`: the current cursor position. -/
def iterKey (i : Int) (values : List Value) : Value := .int i

/-- `iterator.Scan` from `value.go` reads `values[i]` into the destination
(always succeeding for a pointer destination). -/
def iterScanVal (i : Int) (values : List Value) : Value :=
  (values.get? i.toNat).getD .null

/-- Iterate `iterNext` `k` times from cursor `i`, returning the final cursor. -/
def iterNextK : Nat → Int → List Value → Int
  | 0, i, _ => i
  | k + 1, i, values => iterNextK k (iterNext i values).2 values

/-- The values successive `Next`/`Scan` calls yield from cursor `i`:
`values[i+1], values[i+2], …` (for the reachable states `-1 ≤ i`). -/
def iterRemaining (i : Int) (values : List Value) : List Value :=
  values.drop (i + 1).toNat

/-! ## The lazy stream (`parser.go`: `valueStream`, `newStream`)

A `*valueStream` is the `Value.stream i done val vals` constructor: `val`
holds the single wrapped value (`Value.null` is Go's zero `interface{}`,
i.e. "not set"), `vals` the wrapped slice (`none` is a nil slice). -/

/-- `valueStream.Next` from `parser.go`.  Returns the yielded value (if any)
and the mutated stream state `(i, done, val, vals)`.
Mirrors the source: if both `val` and `vals` are nil, report exhaustion;
if `val` is set, yield it once and clear it; otherwise walk `vals` until
`i == len(vals)` or the stream was closed (`done`).
(For the unreachable states `i > len(vals)` the source would panic on
`vals[i]`; this model returns the `getD` default there — no reachable state
hits that case, since `i` starts at 0 and only increments below the length.) -/
def streamNext (i : Nat) (done : Bool) (val : Value) (vals : Option (List Value)) :
    Option Value × (Nat × Bool × Value × Option (List Value)) :=
  match val, vals with
  | .null, none => (none, (i, done, .null, none))
  | .null, some l =>
    if i = l.length ∨ done then (none, (i, done, .null, some l))
    else (some (l.getD i .null), (i + 1, done, .null, some l))
  | v, _ => (some v, (i, done, .null, vals))

/-- `valueStream.Close` from `parser.go`: sets `done` and returns nil. -/
def streamClose (i : Nat) (done : Bool) (val : Value) (vals : Option (List Value)) :
    Option String × (Nat × Bool × Value × Option (List Value)) :=
  (none, (i, true, val, vals))

/-- The sequence of values successive `valueStream.Next` calls yield from
the given state (closed form; `streamElems_next_step` below proves it
matches one `streamNext` step). -/
def streamElems (i : Nat) (done : Bool) (val : Value) (vals : Option (List Value)) :
    List Value :=
  (match val with
   | .null => []
   | v => [v]) ++
  (match vals with
   | none => []
   | some l => if done then [] else l.drop i)

/-- `newStream` from `parser.go`: lift a value into a fresh stream.
A slice becomes the `vals` alternative; a nested stream or any scalar or raw
map becomes the `val` alternative (note that lifting Go `nil` stores the nil
interface in `val`, i.e. leaves it unset); anything else — `Link`, `Map`,
`Iterator`, `ByteReader`, the literal wrappers — is an
"unrecognized type" error. -/
def newStream : Value → Except EvalErr Value
  | .seq vs => .ok (.stream 0 false .null (some vs))
  | .null => .ok (.stream 0 false .null none)
  | .bool b => .ok (.stream 0 false (.bool b) none)
  | .byte b => .ok (.stream 0 false (.byte b) none)
  | .int n => .ok (.stream 0 false (.int n) none)
  | .float q => .ok (.stream 0 false (.float q) none)
  | .str s => .ok (.stream 0 false (.str s) none)
  | .bytes bs => .ok (.stream 0 false (.bytes bs) none)
  | .mapV es => .ok (.stream 0 false (.mapV es) none)
  | .mapS es => .ok (.stream 0 false (.mapS es) none)
  | .stream i d v vs => .ok (.stream 0 false (.stream i d v vs) none)
  | v => .error (.unrecognizedType v)

/-! ## Shared evaluator helpers (`filter.go`) -/

mutual

/-- Structural equality of dynamic values, modelling Go's `interface{}`
comparison used by `map[interface{}]interface{}` key lookup. -/
def veq : Value → Value → Bool
  | .null, .null => true
  | .bool a, .bool b => a = b
  | .byte a, .byte b => a = b
  | .int a, .int b => a = b
  | .float a, .float b => a = b
  | .bytes a, .bytes b => a = b
  | .str a, .str b => a = b
  | .seq a, .seq b => veqL a b
  | .mapS a, .mapS b => veqSL a b
  | .mapV a, .mapV b => veqVL a b
  | .link p a r, .link p' a' r' => p = p' ∧ veq a a' ∧ r = r'
  | .mapCap a, .mapCap b => veqCL a b
  | .iter i a, .iter i' b => i = i' ∧ veqL a b
  | .byteReader a, .byteReader b => a = b
  | .stream i d v vs, .stream i' d' v' vs' =>
    i = i' ∧ d = d' ∧ veq v v' ∧ veqOL vs vs'
  | .numericLit a, .numericLit b => a = b
  | .stringLit a, .stringLit b => a = b
  | _, _ => false

/-- `veq` on value lists. -/
def veqL : List Value → List Value → Bool
  | [], [] => true
  | a :: as, b :: bs => veq a b ∧ veqL as bs
  | _, _ => false

/-- `veq` on string-keyed entry lists. -/
def veqSL : List (String × Value) → List (String × Value) → Bool
  | [], [] => true
  | (k, a) :: as, (k', b) :: bs => k = k' ∧ veq a b ∧ veqSL as bs
  | _, _ => false

/-- `veq` on value-keyed entry lists. -/
def veqVL : List (Value × Value) → List (Value × Value) → Bool
  | [], [] => true
  | (k, a) :: as, (k', b) :: bs => veq k k' ∧ veq a b ∧ veqVL as bs
  | _, _ => false

/-- `veq` on Map-capability entry lists. -/
def veqCL : List (String × Value × Option String) → List (String × Value × Option String) → Bool
  | [], [] => true
  | (k, a, e) :: as, (k', b, e') :: bs => k = k' ∧ veq a b ∧ e = e' ∧ veqCL as bs
  | _, _ => false

/-- `veq` on optional value lists. -/
def veqOL : Option (List Value) → Option (List Value) → Bool
  | none, none => true
  | some a, some b => veqL a b
  | _, _ => false

end

/-- Go `map[string]interface{}` lookup `v[k]`: the bound value, or the zero
`interface{}` (nil) when the key is absent — never an error. -/
def lookupS (entries : List (String × Value)) (k : String) : Value :=
  match entries.find? (fun e => e.1 = k) with
  | some e => e.2
  | none => .null

/-- Go `map[interface{}]interface{}` lookup `v[key]` (never an error). -/
def lookupV (entries : List (Value × Value)) (key : Value) : Value :=
  match entries.find? (fun e => veq e.1 key) with
  | some e => e.2
  | none => .null

/-- The `value.Map` capability's `ValueForKey`: result value and error. -/
def mcValueForKey (entries : List (String × Value × Option String)) (k : String) :
    Value × Option String :=
  match entries.find? (fun e => e.1 = k) with
  | some (_, v, e) => (v, e)
  | none => (.null, none)

/-- The `reflect.Kind` of a (non-nil) dynamic value. -/
def kindOf : Value → RKind
  | .null => .otherK
  | .bool _ => .boolK
  | .byte _ => .uint8K
  | .int _ => .intK
  | .float _ => .float64
  | .bytes _ => .sliceK
  | .str _ => .stringK
  | .seq _ => .sliceK
  | .mapS _ => .mapK
  | .mapV _ => .mapK
  | .numericLit _ => .float64
  | .stringLit _ => .stringK
  | _ => .otherK

/-- `normalizeValue` from `filter.go`: unwrap the literal wrapper types,
then convert `int` to `float64`; pass everything else through with its kind.
`reflect.TypeOf(nil)` is a nil `reflect.Type`, so calling `.Kind()` on it —
which the code does whenever the input is nil and not a wrapper — panics
with a nil pointer dereference. -/
def normalizeValue : Value → Except EvalErr (Value × RKind)
  | .numericLit q => .ok (.float q, .float64)
  | .stringLit s => .ok (.str s, .stringK)
  | .null =>
    .error (.panicked "runtime error: invalid memory address or nil pointer dereference")
  | .int n => .ok (.float (n : Rat), .float64)
  | v => .ok (v, kindOf v)

/-- The arithmetic half of `fBinaryOp.apply`, after both operands are
normalized: `*` and `+` are implemented when both kinds are `float64`;
every other operator/kind combination returns the explicit
"binary operations are not finished" error carrying the normalized operands
and the operator, exactly as the `fmt.Errorf` call does.  (When the kind is
`float64` the normalized value is always a `float`, so the type assertions
`left.(float64)`/`right.(float64)` cannot panic; the fallthrough arm is
unreachable for `float64` kinds.) -/
def binOpCombine (l : Value) (lk : RKind) (op : TokT) (r : Value) (rk : RKind) :
    Except EvalErr Value :=
  match op, lk, rk, l, r with
  | .tStar, .float64, .float64, .float a, .float b => .ok (.float (a * b))
  | .tPlus, .float64, .float64, .float a, .float b => .ok (.float (a + b))
  | _, _, _, _, _ => .error (.binOpUnsupported l op r)

/-- The first step of most selector `apply` methods: if the input is a
`value.Link`, fetch its target through the resolver (`r.Resolve(ctx, link)`),
aborting on a resolution error. -/
def resolveLink (r : Resolver) : Value → Except EvalErr Value
  | .link p _ _ => r p
  | v => .ok v

/-- Go string indexing `v[i]` (a byte; panics when out of range).  Character
positions model byte positions for the ASCII text used throughout. -/
def goStrIndex (s : String) (i : Int) : Except EvalErr Value :=
  if h : 0 ≤ i ∧ i < (s.length : Int) then
    .ok (.byte ((s.toList.getD i.toNat ' ').toNat))
  else
    .error (.panicked "runtime error: index out of range")

/-- Go byte-slice indexing `v[i]`. -/
def goBytesIndex (bs : List Nat) (i : Int) : Except EvalErr Value :=
  if 0 ≤ i ∧ i < (bs.length : Int) then
    .ok (.byte (bs.getD i.toNat 0))
  else
    .error (.panicked "runtime error: index out of range")

/-- Go `[]interface{}` indexing `v[i]`. -/
def goSeqIndex (vs : List Value) (i : Int) : Except EvalErr Value :=
  if 0 ≤ i ∧ i < (vs.length : Int) then
    .ok (vs.getD i.toNat .null)
  else
    .error (.panicked "runtime error: index out of range")

/-- Go string slicing `v[a:b]`: panics unless `0 ≤ a ≤ b ≤ len(v)`. -/
def goStrSlice (s : String) (a b : Int) : Except EvalErr Value :=
  if 0 ≤ a ∧ a ≤ b ∧ b ≤ (s.length : Int) then
    .ok (.str (String.mk ((s.toList.drop a.toNat).take (b - a).toNat)))
  else
    .error (.panicked "runtime error: slice bounds out of range")

/-- Go byte-slice slicing `v[a:b]`. -/
def goBytesSlice (bs : List Nat) (a b : Int) : Except EvalErr Value :=
  if 0 ≤ a ∧ a ≤ b ∧ b ≤ (bs.length : Int) then
    .ok (.bytes ((bs.drop a.toNat).take (b - a).toNat))
  else
    .error (.panicked "runtime error: slice bounds out of range")

/-- Go `[]interface{}` slicing `v[a:b]`. -/
def goSeqSlice (vs : List Value) (a b : Int) : Except EvalErr Value :=
  if 0 ≤ a ∧ a ≤ b ∧ b ≤ (vs.length : Int) then
    .ok (.seq ((vs.drop a.toNat).take (b - a).toNat))
  else
    .error (.panicked "runtime error: slice bounds out of range")

/-- Go `[]interface{}` tail slicing `v[a:]`. -/
def goSeqSuffix (vs : List Value) (a : Int) : Except EvalErr Value :=
  if 0 ≤ a ∧ a ≤ (vs.length : Int) then
    .ok (.seq (vs.drop a.toNat))
  else
    .error (.panicked "runtime error: slice bounds out of range")

/-- The `value.Iterator` loop of `fIndexRangeSelector.apply` (`filter.go`),
over the list of values the iterator still yields:

    offset := f.start; limit := f.stop
    for it.Next() {
      if offset--; offset > 0 { continue }
      it.Scan(&v); res = append(res, v)
      if limit--; limit == 0 { break }
    }

Note the loop decrements `offset` BEFORE comparing with `> 0`, so it skips
only `start-1` elements (none when `start ≤ 1`); and it stops after `stop`
collected elements when `stop ≥ 1`, collecting everything otherwise. -/
def rangeLoop : Int → Int → List Value → List Value
  | _, _, [] => []
  | offset, limit, v :: rest =>
    if offset - 1 > 0 then rangeLoop (offset - 1) limit rest
    else v :: (if limit - 1 = 0 then [] else rangeLoop (offset - 1) (limit - 1) rest)

/-- The `io.ReadCloser` branch of `fIndexRangeSelector.apply`.  A read into
a buffer of `k` bytes takes up to `k` bytes, zero-padding the buffer beyond
what was read (the code ignores the returned count); a read from an
exhausted reader returns `io.EOF`, which the code propagates. -/
def byteReaderRange (start stop : Int) (bs : List Nat) : Except EvalErr Value :=
  if start > 0 then
    if bs.isEmpty then .error .readEOF
    else
      let rest := bs.drop start.toNat
      if stop = 0 then .ok (.bytes rest)
      else if stop < 0 then .error (.panicked "runtime error: makeslice: len out of range")
      else if rest.isEmpty then .error .readEOF
      else .ok (.bytes (rest.take stop.toNat ++ List.replicate (stop.toNat - rest.length) 0))
  else
    if stop = 0 then .ok (.bytes bs)
    else if stop < 0 then .error (.panicked "runtime error: makeslice: len out of range")
    else if bs.isEmpty then .error .readEOF
    else .ok (.bytes (bs.take stop.toNat ++ List.replicate (stop.toNat - bs.length) 0))

/-! ## Numeric text conversion (`strconv`, as used by `parser.go`) -/

/-- The numeric value of a list of decimal digit characters. -/
def digitsToNat (acc : Nat) : List Char → Nat
  | [] => acc
  | c :: rest => digitsToNat (acc * 10 + (c.toNat - 48)) rest

/-- `strconv.ParseInt(s, 10, 64)` restricted to the token texts the scanner
can produce: an optional sign followed by decimal digits. -/
def parseIntT (s : String) : Option Int :=
  let core := fun (cs : List Char) =>
    if cs ≠ [] ∧ cs.all Char.isDigit then some ((digitsToNat 0 cs : Nat) : Int) else none
  match s.toList with
  | '-' :: cs => (core cs).map (fun n => -n)
  | '+' :: cs => core cs
  | cs => core cs

/-- `strconv.ParseFloat(s, 64)` restricted to plain decimal numerals (no
exponent, hex, inf or nan — the scanner only produces digits and dots):
an optional sign, at most one dot, at least one digit overall. -/
def parseFloatT (s : String) : Option Rat :=
  let core := fun (cs : List Char) =>
    match cs.splitOn '.' with
    | [ip] =>
      if ip ≠ [] ∧ ip.all Char.isDigit then some ((digitsToNat 0 ip : Nat) : Rat) else none
    | [ip, fp] =>
      if (ip ≠ [] ∨ fp ≠ []) ∧ ip.all Char.isDigit ∧ fp.all Char.isDigit then
        some (((digitsToNat 0 ip : Nat) : Rat) +
          ((digitsToNat 0 fp : Nat) : Rat) / ((10 : Rat) ^ fp.length))
      else none
    | _ => none
  match s.toList with
  | '-' :: cs => (core cs).map (fun q => -q)
  | '+' :: cs => core cs
  | cs => core cs

/-! ## The evaluator (`filter.go`)

`apply fuel r f v` is the `apply` method of filter node `f` on input `v`
with resolver `r`.  The Go methods are mutually recursive through dynamic
dispatch; the embedding makes one recursion step explicit (`applyStep`,
which receives the recursive evaluator for the node's sub-calls) and ties
the knot by structural recursion on a fuel counter, so that every
definition reduces definitionally.  Each loop of the source is its own
helper taking the recursive evaluator `rec`. -/

/-- The loop of `applyToStream` (`parser.go`) and of the `[]interface{}`
broadcast in `fKeySelector.apply` (`filter.go`): apply the same filter to
each value in turn, stopping at the first error. -/
def applyVals (rec : Resolver → Filter → Value → Except EvalErr Value)
    (r : Resolver) (f : Filter) : List Value → Except EvalErr (List Value)
  | [] => .ok []
  | v :: rest => do
    let x ← rec r f v
    let xs ← applyVals rec r f rest
    .ok (x :: xs)

/-- `applyToStream` from `parser.go`: drain the stream, re-applying the
filter to every yielded element, and collect the results into a concrete
`[]interface{}`. -/
def applyToStream (rec : Resolver → Filter → Value → Except EvalErr Value)
    (r : Resolver) (f : Filter) (i : Nat) (d : Bool) (val : Value)
    (vals : Option (List Value)) : Except EvalErr Value :=
  (applyVals rec r f (streamElems i d val vals)).map .seq

/-- The loop of `fSlice.apply`: apply each sub-filter to the same input. -/
def applyFilters (rec : Resolver → Filter → Value → Except EvalErr Value)
    (r : Resolver) (fs : List Filter) (v : Value) : Except EvalErr (List Value) :=
  match fs with
  | [] => .ok []
  | f :: rest => do
    let x ← rec r f v
    let xs ← applyFilters rec r rest v
    .ok (x :: xs)

/-- The loop of `fObjectMapping.apply`: apply each named sub-filter to the
same input, collecting into a `map[string]interface{}`. -/
def applyObjEntries (rec : Resolver → Filter → Value → Except EvalErr Value)
    (r : Resolver) (es : List (String × Filter)) (v : Value) :
    Except EvalErr (List (String × Value)) :=
  match es with
  | [] => .ok []
  | (k, f) :: rest => do
    let x ← rec r f v
    let xs ← applyObjEntries rec r rest v
    .ok ((k, x) :: xs)

/-- The loop of `fSelector.apply`: thread the output of each selector step
into the next, surfacing the first error. -/
def applyChain (rec : Resolver → Filter → Value → Except EvalErr Value)
    (r : Resolver) (sels : List Filter) (v : Value) : Except EvalErr Value :=
  match sels with
  | [] => .ok v
  | f :: rest => do
    let v' ← rec r f v
    applyChain rec r rest v'

/-- One step of filter-node dispatch: the body of each node type's `apply`
method from `filter.go`, with `rec` standing for the recursive method calls
(`f.apply(...)` on sub-nodes and the per-element re-dispatch of
`applyToStream`). -/
def applyStep (rec : Resolver → Filter → Value → Except EvalErr Value)
    (r : Resolver) (f : Filter) (v : Value) : Except EvalErr Value :=
  match f with
  | .fnil =>
    -- calling a method on a nil filter interface panics
    .error (.panicked "runtime error: invalid memory address or nil pointer dereference")
  | .strLit s =>
    match v with
    | .stream i d sv svs => applyToStream rec r (.strLit s) i d sv svs
    | _ => .ok (.str s)
  | .numLit q =>
    -- fNumericLiteral.apply returns the wrapper itself, for ANY input —
    -- there is no stream re-dispatch here
    .ok (.numericLit q)
  | .length =>
    match v with
    | .iter i vs => .ok (.int ((iterRemaining i vs).length : Int))
    | .stream i d sv svs => applyToStream rec r .length i d sv svs
    | .str s => .ok (.int (s.length : Int))
    | .bytes bs => .ok (.int (bs.length : Int))
    | .mapV es => .ok (.int (es.length : Int))
    | .mapS es => .ok (.int (es.length : Int))
    | .seq vs => .ok (.int (vs.length : Int))
    | .null | .bool _ | .byte _ | .int _ | .float _ => .ok .null
    | w => .error (.unexpectedType w)
  | .chain sels => applyChain rec r sels v
  | .identity => .ok v
  | .keySel k => do
    let v' ← resolveLink r v
    match v' with
    | .mapCap es => .ok (mcValueForKey es k).1
    | .stream i d sv svs => applyToStream rec r (.keySel k) i d sv svs
    | .mapV es => .ok (lookupV es (.str k))
    | .mapS es => .ok (lookupS es k)
    | .seq vs => (applyVals rec r (.keySel k) vs).map .seq
    | .null | .bool _ | .byte _ | .int _ | .float _ | .str _ | .bytes _ => .ok .null
    | w => .error (.unexpectedType w)
  | .indexSel m => do
    let v' ← resolveLink r v
    match v' with
    | .iter i vs =>
      -- linear scan; a position that is never reached leaves `out` nil
      .ok (if m < 0 then .null else ((iterRemaining i vs).get? m.toNat).getD .null)
    | .stream i d sv svs => applyToStream rec r (.indexSel m) i d sv svs
    | .str s => goStrIndex s m
    | .bytes bs => goBytesIndex bs m
    | .seq vs => goSeqIndex vs m
    | .null | .bool _ | .byte _ | .int _ | .float _ | .mapS _ | .mapV _ => .ok .null
    | w => .error (.unexpectedType w)
  | .iterAll _ => do
    let v' ← resolveLink r v
    match v' with
    | .iter i vs => .ok (.iter i vs)
    | w => newStream w
  | .rangeSel start stop all => do
    let v' ← resolveLink r v
    match v' with
    | .iter i vs => .ok (.seq (rangeLoop start stop (iterRemaining i vs)))
    | .byteReader bs => byteReaderRange start stop bs
    | .stream i d sv svs => applyToStream rec r (.rangeSel start stop all) i d sv svs
    | .str s => if all then .ok (.str s) else goStrSlice s start stop
    | .bytes bs => if all then .ok (.bytes bs) else goBytesSlice bs start stop
    | .seq vs =>
      if all then .ok (.seq vs)
      else if stop = 0 then goSeqSuffix vs start
      else goSeqSlice vs start stop
    | .null | .bool _ | .byte _ | .int _ | .float _ | .mapS _ | .mapV _ => .ok .null
    | w => .error (.unexpectedType w)
  | .binOp lf op rf => do
    let lres ← rec r lf v
    let ln ← normalizeValue lres
    let rres ← rec r rf v
    let rn ← normalizeValue rres
    binOpCombine ln.1 ln.2 op rn.1 rn.2
  | .fSlice fs => do
    let v' ← resolveLink r v
    match v' with
    | .stream i d sv svs => applyToStream rec r (.fSlice fs) i d sv svs
    | w => (applyFilters rec r fs w).map .seq
  | .objMap es =>
    match v with
    | .stream i d sv svs => applyToStream rec r (.objMap es) i d sv svs
    | w => (applyObjEntries rec r es w).map .mapS

/-- The filter-node `apply` contract, fuelled.  `fuel` bounds the dynamic
call depth; every theorem below holds for every sufficient fuel. -/
def apply : Nat → Resolver → Filter → Value → Except EvalErr Value
  | 0, _, _, _ => .error .outOfFuel
  | n + 1, r, f, v => applyStep (apply n) r f v

/-- The loop of `unpackValueStreams` over the values a stream yields. -/
def unpackVals (rec : Value → Except EvalErr Value) :
    List Value → Except EvalErr (List Value)
  | [] => .ok []
  | v :: rest => do
    let x ← rec v
    let xs ← unpackVals rec rest
    .ok (x :: xs)

/-- One step of `unpackValueStreams` (`filter.go`): a stream is drained and
each yielded value recursively unpacked into a concrete `[]interface{}`
(note `vals := []interface{}{}`, so an exhausted stream flattens to the
empty sequence); any other value is returned as is. -/
def unpackStep (rec : Value → Except EvalErr Value) : Value → Except EvalErr Value
  | .stream i d val vals => (unpackVals rec (streamElems i d val vals)).map .seq
  | v => .ok v

/-- `unpackValueStreams` from `filter.go`, fuelled: recursively, depth-first
flatten residual streams in the final result into concrete sequences. -/
def unpackValueStreams : Nat → Value → Except EvalErr Value
  | 0, _ => .error .outOfFuel
  | n + 1, v => unpackStep (unpackValueStreams n) v

/-! ## The parser (`parser.go`)

The token source is a `List Tok`.  `p.scan()` takes the head (yielding the
EOF token forever once the list is empty, as the scanner does at end of
input) and `p.unscan()` is modelled by simply continuing from the
un-consumed list.  The mutually recursive parser functions and their `for`
loops are the arms of one dispatcher `parseRun`, structurally recursive on
a fuel counter (each Go function call and each loop iteration costs one
unit); the named wrappers below restore the source's entry points.  Every
function returns the Go-style triple (filter, error, remaining tokens),
with `Filter.fnil` standing for a nil `filter` interface value, which the
source does return in places (both alone and together with an error). -/

/-- `p.scan()`: one token of lookahead over the token list. -/
def scanT : List Tok → Tok × List Tok
  | [] => (⟨.tEOF, ""⟩, [])
  | t :: rest => (t, rest)

/-- `parseTextFilter` from `parser.go`: the bareword `length` is the length
operator, any other text an implicit string literal. -/
def parseTextFilter (t : Tok) : Filter :=
  if t.text = "length" then .length else .strLit t.text

/-- Go map assignment `objf[key] = f`: replace or append. -/
def assocPut (objf : List (String × Filter)) (k : String) (f : Filter) :
    List (String × Filter) :=
  match objf with
  | [] => [(k, f)]
  | (k', f') :: rest => if k' = k then (k, f) :: rest else (k', f') :: assocPut rest k f

/-- The pending parser activations: one constructor per mutually recursive
parser function (or per `for` loop of one) from `parser.go`. -/
inductive PCall where
  | readFilterLoop (f : Filter) (fs : List Filter) (toks : List Tok)
  | readOneFilter (toks : List Tok)
  | parseBinaryOp (left : Filter) (op : TokT) (toks : List Tok)
  | readSelectorLoop (sel : List Filter) (toks : List Tok)
  | parseSliceLoop (start stop : Int) (hasColon empty : Bool) (toks : List Tok)
  | completeArrayMap (am : List Filter) (toks : List Tok)
  | parseObjectMapLoop (objf : List (String × Filter)) (key : String) (toks : List Tok)

/-- The parser: each arm transcribes the corresponding function of
`parser.go` (see the wrappers below for the entry points). -/
def parseRun : Nat → PCall → Filter × Option PErr × List Tok
  | 0, _ => (.fnil, some .outOfFuel, [])
  | n + 1, c =>
    match c with
    | .readFilterLoop f fs toks =>
      -- `readFilter`'s for loop
      let (t, rest) := scanT toks
      match t.type with
      | .tDot =>
        match parseRun n (.readSelectorLoop [] toks) with
        | (f', some e, toks') => (f', some e, toks')
        | (f', none, toks') => parseRun n (.readFilterLoop f' fs toks')
      | .tNumber =>
        match parseFloatT t.text with
        | none => (.fnil, some (.numErr t.text), rest)
        | some q => parseRun n (.readFilterLoop (.numLit q) fs rest)
      | .tStar =>
        match parseRun n (.parseBinaryOp f t.type rest) with
        | (f', some e, toks') => (f', some e, toks')
        | (f', none, toks') => parseRun n (.readFilterLoop f' fs toks')
      | .tPlus =>
        match parseRun n (.parseBinaryOp f t.type rest) with
        | (f', some e, toks') => (f', some e, toks')
        | (f', none, toks') => parseRun n (.readFilterLoop f' fs toks')
      | .tMinus =>
        match parseRun n (.parseBinaryOp f t.type rest) with
        | (f', some e, toks') => (f', some e, toks')
        | (f', none, toks') => parseRun n (.readFilterLoop f' fs toks')
      | .tLeftBracket =>
        match parseRun n (.parseSliceLoop 0 0 false true rest) with
        | (_, some e, toks') => (.fnil, some e, toks')
        | (f', none, toks') => parseRun n (.readFilterLoop f' fs toks')
      | .tLeftBrace => parseRun n (.parseObjectMapLoop [] "" rest)
      | .tText => parseRun n (.readFilterLoop (parseTextFilter t) fs rest)
      | .tComma => (.fSlice (fs ++ [f]), none, rest)
      | .tPipe =>
        if fs.length > 0 then (.fSlice (fs ++ [f]), none, rest) else (f, none, rest)
      | .tEOF =>
        if fs.length > 0 then (.fSlice (fs ++ [f]), some .eofErr, rest)
        else (f, some .eofErr, rest)
      | _ =>
        -- the Go switch has no default: unmatched token types are skipped
        parseRun n (.readFilterLoop f fs rest)
    | .readOneFilter toks =>
      let (t, rest) := scanT toks
      match t.type with
      | .tDot => parseRun n (.readSelectorLoop [] toks)
      | .tNumber =>
        match parseFloatT t.text with
        | none => (.fnil, some (.numErr t.text), rest)
        | some q => (.numLit q, none, rest)
      | .tStar => parseRun n (.parseBinaryOp .fnil t.type rest)
      | .tPlus => parseRun n (.parseBinaryOp .fnil t.type rest)
      | .tMinus => parseRun n (.parseBinaryOp .fnil t.type rest)
      | .tLeftBracket => parseRun n (.parseSliceLoop 0 0 false true rest)
      | .tLeftBrace => parseRun n (.parseObjectMapLoop [] "" rest)
      | .tText => (parseTextFilter t, none, rest)
      | _ => (.fnil, some (.unexpectedTokT t.type), toks)
    | .parseBinaryOp left op toks =>
      -- the left operand is whatever was parsed so far (possibly nil);
      -- the right operand is a full readFilter, made right-associative
      let (right, err, toks') := parseRun n (.readFilterLoop .fnil [] toks)
      (.binOp left op right, err, toks')
    | .readSelectorLoop sel toks =>
      let (t, rest) := scanT toks
      match t.type with
      | .tDot => parseRun n (.readSelectorLoop (sel ++ [.identity]) rest)
      | .tText => parseRun n (.readSelectorLoop (sel ++ [.keySel t.text]) rest)
      | .tLeftBracket =>
        match parseRun n (.parseSliceLoop 0 0 false true rest) with
        | (_, some e, toks') => (.fnil, some e, toks')
        | (sf, none, toks') => parseRun n (.readSelectorLoop (sel ++ [sf]) toks')
      | _ => (.chain sel, none, toks)
    | .parseSliceLoop start stop hasColon empty toks =>
      let (t, rest) := scanT toks
      match t.type with
      | .tNumber =>
        match parseIntT t.text with
        | none => (.fnil, some (.numErr t.text), rest)
        | some num =>
          if hasColon then parseRun n (.parseSliceLoop start num hasColon false rest)
          else parseRun n (.parseSliceLoop num stop hasColon false rest)
      | .tColon => parseRun n (.parseSliceLoop start stop true false rest)
      | .tLeftBracket => parseRun n (.parseSliceLoop start stop hasColon empty rest)
      | .tRightBracket =>
        if ¬hasColon ∧ ¬empty then (.indexSel start, none, rest)
        else if empty then (.iterAll false, none, rest)
        else (.rangeSel start stop false, none, rest)
      | _ =>
        if hasColon then (.fnil, some (.unexpectedTok t), rest)
        else
          -- not a slice after all: fall back to array construction,
          -- re-injecting the consumed number ONLY when it is nonzero
          parseRun n (.completeArrayMap
            (if start ≠ 0 then [.numLit (start : Rat)] else []) toks)
    | .completeArrayMap am toks =>
      let (t, rest) := scanT toks
      match t.type with
      | .tRightBracket => (.fSlice am, none, rest)
      | .tComma => parseRun n (.completeArrayMap am rest)
      | .tEOF => (.fSlice am, none, toks)
      | _ =>
        match parseRun n (.readOneFilter toks) with
        | (_, some e, toks') => (.fnil, some e, toks')
        | (cursor, none, toks') =>
          match cursor with
          | .fnil => parseRun n (.completeArrayMap am toks')
          | c' => parseRun n (.completeArrayMap (am ++ [c']) toks')
    | .parseObjectMapLoop objf key toks =>
      let (t, rest) := scanT toks
      match t.type with
      | .tText =>
        if key ≠ "" then (.fnil, some (.unexpectedStr t.text), rest)
        else parseRun n (.parseObjectMapLoop objf t.text rest)
      | .tColon =>
        match parseRun n (.readOneFilter rest) with
        | (_, some e, toks') => (.fnil, some e, toks')
        | (fv, none, toks') =>
          parseRun n (.parseObjectMapLoop (assocPut objf key fv) key toks')
      | .tComma => parseRun n (.parseObjectMapLoop objf "" rest)
      | .tRightBrace => (.objMap objf, none, rest)
      | _ => (.fnil, some (.unexpectedTok t), rest)

/-- `parser.readFilter`: parse one pipeline stage. -/
def readFilter (n : Nat) (toks : List Tok) : Filter × Option PErr × List Tok :=
  parseRun n (.readFilterLoop .fnil [] toks)

/-- `parser.readOneFilter`: parse a single filter expression. -/
def readOneFilter (n : Nat) (toks : List Tok) : Filter × Option PErr × List Tok :=
  parseRun n (.readOneFilter toks)

/-- `parser.readSelector`: parse a selector chain (the dot still pending). -/
def readSelector (n : Nat) (toks : List Tok) : Filter × Option PErr × List Tok :=
  parseRun n (.readSelectorLoop [] toks)

/-- `parser.parseSliceFilter`: bracket disambiguation, entered just after
the opening `[` with the fresh state `{start: 0, stop: 0}`, no colon seen,
nothing seen. -/
def parseSliceFilter (n : Nat) (toks : List Tok) : Filter × Option PErr × List Tok :=
  parseRun n (.parseSliceLoop 0 0 false true toks)

/-- `parser.parseObjectMap`: object-mapping parsing, after the `{`. -/
def parseObjectMap (n : Nat) (toks : List Tok) : Filter × Option PErr × List Tok :=
  parseRun n (.parseObjectMapLoop [] "" toks)

/-- A resolver that is never consulted successfully (`filter.New` with a nil
resolver: touching a link then crashes).  The evaluations below never reach
it — none of their inputs contain a link. -/
def noResolver : Resolver := fun _ => .error (.panicked "no resolver")

/-! ## Helper lemmas -/

/-- The stream/broadcast loop is exactly a monadic map of the re-dispatched
filter over the element list. -/
theorem applyVals_eq_mapM (rec : Resolver → Filter → Value → Except EvalErr Value)
    (r : Resolver) (f : Filter) (l : List Value) :
    applyVals rec r f l = l.mapM (rec r f) := by
  induction l with
  | nil => rw [List.mapM_nil]; rfl
  | cons v rest ih => rw [List.mapM_cons, ← ih]; rfl

/-- `streamElems` agrees with one step of `valueStream.Next` on every state
whose cursor is in range (which includes every state `newStream` and `Next`
can produce). -/
theorem streamElems_next_step (i : Nat) (d : Bool) (val : Value)
    (vals : Option (List Value)) (h : ∀ l, vals = some l → i ≤ l.length) :
    streamElems i d val vals =
      (match streamNext i d val vals with
       | (none, _) => []
       | (some x, (i', d', v', vs')) => x :: streamElems i' d' v' vs') := by
  match val, vals with
  | .null, none => rfl
  | .null, some l =>
    by_cases hd : d
    · subst hd
      simp [streamElems, streamNext]
    · have hi := h l rfl
      by_cases hil : i = l.length
      · subst hil
        simp [streamElems, streamNext, hd, List.drop_eq_nil_of_le]
      · have hlt : i < l.length := lt_of_le_of_ne hi hil
        simp only [streamElems, streamNext, hd, hil, false_or, if_neg, or_self,
          ite_false, List.nil_append]
        rw [List.drop_eq_getElem_cons hlt]
        simp [List.getD, List.getElem?_eq_getElem hlt]
  | .bool b, vs => rfl
  | .byte b, vs => rfl
  | .int n', vs => rfl
  | .float q, vs => rfl
  | .bytes bs, vs => rfl
  | .str s, vs => rfl
  | .seq l, vs => rfl
  | .mapS es, vs => rfl
  | .mapV es, vs => rfl
  | .link p c rv, vs => rfl
  | .mapCap es, vs => rfl
  | .iter ii l, vs => rfl
  | .byteReader bs, vs => rfl
  | .stream a b' c' d', vs => rfl
  | .numericLit q, vs => rfl
  | .stringLit s, vs => rfl

/-- One step of the iterator-range loop on a nonempty list (definitional). -/
theorem rangeLoop_cons (offset limit : Int) (v : Value) (rest : List Value) :
    rangeLoop offset limit (v :: rest) =
      (if offset - 1 > 0 then rangeLoop (offset - 1) limit rest
       else v :: (if limit - 1 = 0 then []
                  else rangeLoop (offset - 1) (limit - 1) rest)) := rfl

/-- Closed form of the `fIndexRangeSelector.apply` iterator loop: it skips
`max(start-1, 0)` elements (NOT `start`), then takes `stop` elements when
`stop ≥ 1` and everything otherwise. -/
theorem rangeLoop_eq (start stop : Int) (l : List Value) :
    rangeLoop start stop l =
      (if stop ≤ 0 then l.drop (start - 1).toNat
       else (l.drop (start - 1).toNat).take stop.toNat) := by
  induction l generalizing start stop with
  | nil => simp [rangeLoop]
  | cons v rest ih =>
    rw [rangeLoop_cons]
    by_cases hs : start - 1 > 0
    · rw [if_pos hs, ih (start - 1) stop]
      have h1 : (start - 1).toNat = (start - 1 - 1).toNat + 1 := by omega
      rw [h1]
      simp
    · rw [if_neg hs]
      have h0 : (start - 1).toNat = 0 := by omega
      by_cases hl : stop - 1 = 0
      · have hstop : stop = 1 := by omega
        subst hstop
        rw [if_pos hl, h0]
        norm_num
      · rw [if_neg hl, ih (start - 1) (stop - 1)]
        have h0' : (start - 1 - 1).toNat = 0 := by omega
        by_cases hneg : stop ≤ 0
        · rw [if_pos (show stop - 1 ≤ 0 from by omega), if_pos hneg, h0, h0']
          simp
        · have hs2 : ¬stop - 1 ≤ 0 := by omega
          have ht : stop.toNat = (stop - 1).toNat + 1 := by omega
          rw [if_neg hs2, if_neg hneg, h0, h0', ht]
          simp

/-- `applyToStream` is the monadic map of the re-dispatched filter over the
stream's remaining elements, collected as a concrete sequence. -/
theorem applyToStream_eq_mapM (rec : Resolver → Filter → Value → Except EvalErr Value)
    (r : Resolver) (f : Filter) (i : Nat) (d : Bool) (sv : Value)
    (svs : Option (List Value)) :
    applyToStream rec r f i d sv svs
      = ((streamElems i d sv svs).mapM (rec r f)).map Value.seq := by
  rw [applyToStream, applyVals_eq_mapM]

/-! ## The claims -/

/-- Claim C6: for every key name `k`, the key-selector `.k` applied to a raw
mapping (`map[string]interface{}` or `map[interface{}]interface{}`) returns
the value bound to `k`, or null — never an error — when `k` is absent;
applied to an ordered sequence it broadcasts, returning the sequence of `.k`
applied to each element in order; applied to a scalar or null input it
returns null without error.  The last two conjuncts ground the broadcast on
the spec's own example: `.a` over `[{"a":"b"}]` gives `["b"]`, over
`{"a":"b"}` gives `"b"`. -/
theorem c6_key_selector (n : Nat) (r : Resolver) (k : String) :
    (∀ entries, apply (n + 1) r (.keySel k) (.mapS entries) = .ok (lookupS entries k))
  ∧ (∀ entries, apply (n + 1) r (.keySel k) (.mapV entries) = .ok (lookupV entries (.str k)))
  ∧ (∀ vs, apply (n + 1) r (.keySel k) (.seq vs)
       = (vs.mapM (apply n r (.keySel k))).map Value.seq)
  ∧ apply (n + 1) r (.keySel k) .null = .ok .null
  ∧ (∀ b, apply (n + 1) r (.keySel k) (.bool b) = .ok .null)
  ∧ (∀ b, apply (n + 1) r (.keySel k) (.byte b) = .ok .null)
  ∧ (∀ m, apply (n + 1) r (.keySel k) (.int m) = .ok .null)
  ∧ (∀ q, apply (n + 1) r (.keySel k) (.float q) = .ok .null)
  ∧ (∀ s, apply (n + 1) r (.keySel k) (.str s) = .ok .null)
  ∧ (∀ bs, apply (n + 1) r (.keySel k) (.bytes bs) = .ok .null)
  ∧ apply 2 noResolver (.keySel "a") (.seq [.mapS [("a", .str "b")]]) = .ok (.seq [.str "b"])
  ∧ apply 1 noResolver (.keySel "a") (.mapS [("a", .str "b")]) = .ok (.str "b") := by
  refine ⟨fun entries => rfl, fun entries => rfl, fun vs => ?_, rfl, fun b => rfl,
    fun b => rfl, fun m => rfl, fun q => rfl, fun s => rfl, fun bs => rfl, rfl, rfl⟩
  rw [show apply (n + 1) r (.keySel k) (.seq vs)
      = (applyVals (apply n) r (.keySel k) vs).map Value.seq from rfl,
    applyVals_eq_mapM]

/-- Claim C9: when the input satisfies the `value.Map` capability, the
key-selector never fails on the lookup: it calls `ValueForKey`, discards any
error the lookup returns, and yields the (possibly null) value.  The second
conjunct exhibits this on a Map whose lookup DOES return an error: the
selector still succeeds with the value. -/
theorem c9_map_lookup_error_discarded (n : Nat) (r : Resolver) (k : String) :
    (∀ entries, apply (n + 1) r (.keySel k) (.mapCap entries)
       = .ok (mcValueForKey entries k).1)
  ∧ (∀ (v : Value) (e : String),
       apply (n + 1) r (.keySel k) (.mapCap [(k, v, some e)]) = .ok v) := by
  refine ⟨fun entries => rfl, fun v e => ?_⟩
  rw [show apply (n + 1) r (.keySel k) (.mapCap [(k, v, some e)])
      = .ok (mcValueForKey [(k, v, some e)] k).1 from rfl]
  simp [mcValueForKey, List.find?]

/-- Claim C10: a lazy stream lifted from the single scalar null yields no
elements — `newStream(nil)` leaves both alternatives unset, so its pull
operation immediately reports exhaustion — hence `.[]` applied to null
produces a stream that flattens to the empty ordered sequence: not a
one-element sequence containing null, and not an error. -/
theorem c10_null_stream_is_empty (n : Nat) (r : Resolver) :
    newStream .null = .ok (.stream 0 false .null none)
  ∧ streamNext 0 false .null none = (none, (0, false, .null, none))
  ∧ streamElems 0 false .null none = []
  ∧ apply (n + 1) r (.iterAll false) .null = .ok (.stream 0 false .null none)
  ∧ unpackValueStreams (n + 1) (.stream 0 false .null none) = .ok (.seq []) :=
  ⟨rfl, rfl, rfl, rfl, rfl⟩

/-- Claim C3 is right about the intent but the code breaks it for strings
and byte sequences: `.[1:]` parses to an index-range selector with
`stop = 0` (first conjunct), and the `[]interface{}` arm special-cases
`stop == 0` to slice `v[start:]` (last conjunct, the working suffix), but
the `string` and `[]byte` arms slice `v[f.start:f.stop]` unconditionally,
so an omitted stop computes `v[1:0]` — a slice-bounds panic, not the
suffix. -/
theorem c3_omitted_stop_string_panics :
    parseSliceFilter 9 [⟨.tNumber, "1"⟩, ⟨.tColon, ""⟩, ⟨.tRightBracket, ""⟩]
      = (.rangeSel 1 0 false, none, [])
  ∧ apply 3 noResolver (.rangeSel 1 0 false) (.str "abc")
      = .error (.panicked "runtime error: slice bounds out of range")
  ∧ apply 3 noResolver (.rangeSel 1 0 false) (.bytes [104, 105, 106])
      = .error (.panicked "runtime error: slice bounds out of range")
  ∧ apply 3 noResolver (.rangeSel 1 0 false) (.seq [.str "a", .str "b", .str "c"])
      = .ok (.seq [.str "b", .str "c"]) :=
  ⟨rfl, rfl, rfl, rfl⟩

/-- Claim C4 is right about the token boundary but the code loses the
leading character: on `.5` and `-7` the scanner emits a single number token,
but its text is `"5"` / `"7"` — `scanNumber` is entered without unreading
(and without writing `.`/`-` to the builder), unlike the plain-digit case —
so the token text denotes 5 and 7, not 0.5 and -7.  The last two conjuncts
evaluate the numeric conversions the parser would apply. -/
theorem c4_leading_char_dropped :
    scan ['.', '5'] = (⟨.tNumber, "5"⟩, [])
  ∧ scan ['-', '7'] = (⟨.tNumber, "7"⟩, [])
  ∧ scan ['5'] = (⟨.tNumber, "5"⟩, [])
  ∧ parseFloatT "5" = some 5
  ∧ parseFloatT ".5" = some (1 / 2 : Rat) := by
  refine ⟨rfl, rfl, rfl, rfl, ?_⟩
  have h : parseFloatT ".5"
      = some (((0 : Nat) : Rat) + ((5 : Nat) : Rat) / ((10 : Rat) ^ 1)) := rfl
  rw [h]
  norm_num

/-- Claim C7 corrected: over a `value.Iterator`, the index-range selector
does NOT skip `start` elements — the loop `if offset--; offset > 0` skips
only `max(start-1, 0)` of them — and then collects up to `stop` elements
(all remaining ones when `stop ≤ 0`) into a concrete ordered sequence; the
iterator's `Close` (a nil-returning no-op for the generic iterator) is
called before returning, so no error is reported. -/
theorem c7_iterator_range_skips_one_less (n : Nat) (r : Resolver)
    (start stop i : Int) (vs : List Value) :
    apply (n + 1) r (.rangeSel start stop false) (.iter i vs)
      = .ok (.seq (if stop ≤ 0 then (iterRemaining i vs).drop (start - 1).toNat
                   else ((iterRemaining i vs).drop (start - 1).toNat).take stop.toNat)) := by
  rw [show apply (n + 1) r (.rangeSel start stop false) (.iter i vs)
      = .ok (.seq (rangeLoop start stop (iterRemaining i vs))) from rfl,
    rangeLoop_eq]

/-- Claim C7's skip count is wrong on the code: `.[2:3]` over an iterator of
`[10, 20, 30]` yields `[20, 30]` (one element skipped), not the `[30]` that
skipping exactly `start = 2` elements would give. -/
theorem c7_counterexample :
    apply 3 noResolver (.rangeSel 2 3 false) (.iter (-1) [.int 10, .int 20, .int 30])
      = .ok (.seq [.int 20, .int 30])
  ∧ Value.seq [.int 20, .int 30] ≠ Value.seq [.int 30] :=
  ⟨rfl, by simp⟩

/-- Claim C8 corrected: a binary-op node evaluates both operands against the
same input; `*` and `+` over operands normalizing to `float64` return the
product/sum (`.bar * 5` over `{"bar": 5}` gives 25); a non-numeric operand
or an unimplemented operator yields the explicit "binary operations are not
finished" error — but a NULL operand does not: `normalizeValue` calls
`reflect.TypeOf(in).Kind()` on it, which panics on the nil `reflect.Type`,
so that combination crashes instead of returning an error. -/
theorem c8_binop (n : Nat) (r : Resolver) (v : Value) (a b : Rat) (s : String) :
    apply (n + 2) r (.binOp (.keySel "bar") .tStar (.numLit 5)) (.mapS [("bar", .int 5)])
      = .ok (.float 25)
  ∧ apply (n + 2) r (.binOp (.numLit a) .tStar (.numLit b)) v = .ok (.float (a * b))
  ∧ apply (n + 2) r (.binOp (.numLit a) .tPlus (.numLit b)) v = .ok (.float (a + b))
  ∧ apply (n + 2) r (.binOp (.strLit s) .tStar (.numLit b)) (.int 0)
      = .error (.binOpUnsupported (.str s) .tStar (.float b))
  ∧ apply (n + 2) r (.binOp (.numLit a) .tMinus (.numLit b)) v
      = .error (.binOpUnsupported (.float a) .tMinus (.float b))
  ∧ apply (n + 2) r (.binOp .identity .tStar (.numLit b)) .null
      = .error (.panicked "runtime error: invalid memory address or nil pointer dereference") := by
  refine ⟨?_, rfl, rfl, rfl, rfl, rfl⟩
  have h : apply (n + 2) r (.binOp (.keySel "bar") .tStar (.numLit 5)) (.mapS [("bar", .int 5)])
      = .ok (.float ((5 : Rat) * (5 : Rat))) := rfl
  rw [h]
  norm_num

/-- Claim C8's "every other operand/operator combination returns an explicit
error" is false at a null operand: `. * 5` applied to null panics inside
`normalizeValue` (nil `reflect.Type`) rather than returning an error. -/
theorem c8_counterexample :
    apply 3 noResolver (.binOp .identity .tStar (.numLit 5)) .null
      = .error (.panicked "runtime error: invalid memory address or nil pointer dereference") :=
  rfl

/-- Claim C1 corrected: only the string-literal, length, key-selector,
index-selector, index-range, array-construction and object-mapping nodes
re-dispatch themselves once per streamed element, collecting the results
into a concrete ordered sequence (first seven conjuncts).  The
numeric-literal node returns the literal wrapper unchanged, identity returns
the stream itself, iterate-all wraps the stream in a new stream, binary-op
evaluates its operands against the stream without any per-element
collection, and an empty selector chain returns the stream unchanged. -/
theorem c1_stream_redispatch (n : Nat) (r : Resolver) (i : Nat) (d : Bool)
    (sv : Value) (svs : Option (List Value)) :
    (∀ s, apply (n + 1) r (.strLit s) (.stream i d sv svs)
       = ((streamElems i d sv svs).mapM (apply n r (.strLit s))).map Value.seq)
  ∧ (apply (n + 1) r .length (.stream i d sv svs)
       = ((streamElems i d sv svs).mapM (apply n r .length)).map Value.seq)
  ∧ (∀ k, apply (n + 1) r (.keySel k) (.stream i d sv svs)
       = ((streamElems i d sv svs).mapM (apply n r (.keySel k))).map Value.seq)
  ∧ (∀ m : Int, apply (n + 1) r (.indexSel m) (.stream i d sv svs)
       = ((streamElems i d sv svs).mapM (apply n r (.indexSel m))).map Value.seq)
  ∧ (∀ (a b : Int) (al : Bool), apply (n + 1) r (.rangeSel a b al) (.stream i d sv svs)
       = ((streamElems i d sv svs).mapM (apply n r (.rangeSel a b al))).map Value.seq)
  ∧ (∀ fs, apply (n + 1) r (.fSlice fs) (.stream i d sv svs)
       = ((streamElems i d sv svs).mapM (apply n r (.fSlice fs))).map Value.seq)
  ∧ (∀ es, apply (n + 1) r (.objMap es) (.stream i d sv svs)
       = ((streamElems i d sv svs).mapM (apply n r (.objMap es))).map Value.seq)
  ∧ (∀ q, apply (n + 1) r (.numLit q) (.stream i d sv svs) = .ok (.numericLit q))
  ∧ apply (n + 1) r .identity (.stream i d sv svs) = .ok (.stream i d sv svs)
  ∧ apply (n + 1) r (.iterAll false) (.stream i d sv svs)
      = .ok (.stream 0 false (.stream i d sv svs) none)
  ∧ (∀ a b : Rat, apply (n + 2) r (.binOp (.numLit a) .tStar (.numLit b))
       (.stream i d sv svs) = .ok (.float (a * b)))
  ∧ apply (n + 1) r (.chain []) (.stream i d sv svs) = .ok (.stream i d sv svs) :=
  ⟨fun s => applyToStream_eq_mapM (apply n) r (.strLit s) i d sv svs,
   applyToStream_eq_mapM (apply n) r .length i d sv svs,
   fun k => applyToStream_eq_mapM (apply n) r (.keySel k) i d sv svs,
   fun m => applyToStream_eq_mapM (apply n) r (.indexSel m) i d sv svs,
   fun a b al => applyToStream_eq_mapM (apply n) r (.rangeSel a b al) i d sv svs,
   fun fs => applyToStream_eq_mapM (apply n) r (.fSlice fs) i d sv svs,
   fun es => applyToStream_eq_mapM (apply n) r (.objMap es) i d sv svs,
   fun q => rfl, rfl, rfl, fun a b => rfl, rfl⟩

/-- Claim C1's universal quantification over all node variants is false: the
numeric-literal node given a two-element lazy stream returns the bare
literal wrapper, not a two-element collected sequence. -/
theorem c1_counterexample :
    apply 3 noResolver (.numLit 5) (.stream 0 false .null (some [.int 1, .int 2]))
      = .ok (.numericLit 5)
  ∧ Value.numericLit 5 ≠ Value.seq [.numericLit 5, .numericLit 5] :=
  ⟨rfl, fun h => by cases h⟩

/-- Claim C2 corrected: once `Next()` has returned false (exhaustion,
`i ≥ len-1`) every later `Next()` also returns false and the cursor never
moves again; but `Close()` is a state-free no-op returning nil, so a
`Close()` BEFORE exhaustion does not make `Next()` return false. -/
theorem c2_next_false_after_exhaustion (i : Int) (vs : List Value) (k : Nat) :
    iterClose i vs = (none, i)
  ∧ (i ≥ (vs.length : Int) - 1 →
      iterNextK k i vs = i ∧ (iterNext (iterNextK k i vs) vs).1 = false) := by
  refine ⟨rfl, fun h => ?_⟩
  have hn : iterNext i vs = (false, i) := by rw [iterNext, if_pos h]
  have hfix : iterNextK k i vs = i := by
    induction k with
    | zero => rfl
    | succ m ih =>
      show iterNextK m (iterNext i vs).2 vs = i
      rw [hn]
      exact ih
  refine ⟨hfix, ?_⟩
  rw [hfix, hn]

/-- Concrete instance of `c2_next_false_after_exhaustion` at an exhausted
3-element iterator, five further `Next` calls. -/
theorem c2_next_false_witness :
    iterClose 2 [Value.null, Value.null, Value.null] = (none, 2)
  ∧ iterNextK 5 2 [Value.null, Value.null, Value.null] = 2
  ∧ (iterNext (iterNextK 5 2 [Value.null, Value.null, Value.null])
       [Value.null, Value.null, Value.null]).1 = false := by
  have h := c2_next_false_after_exhaustion 2 [Value.null, Value.null, Value.null] 5
  exact ⟨h.1, (h.2 (by decide)).1, (h.2 (by decide)).2⟩

/-- Claim C2's "Next() returns false after Close() regardless of how many
elements had been consumed" is false on the code: consume one element of a
fresh 3-element iterator, `Close()` it, and the next `Next()` still returns
true — `Close()` does nothing. -/
theorem c2_counterexample :
    (iterNext (-1) [Value.null, Value.null, Value.null]).1 = true
  ∧ (iterNext
       (iterClose (iterNext (-1) [Value.null, Value.null, Value.null]).2
         [Value.null, Value.null, Value.null]).2
       [Value.null, Value.null, Value.null]).1 = true := by
  constructor <;> decide

/-! Step lemmas for the bracket-disambiguation loop (`parseSliceFilter` /
`completeArrayMap`), each one token of the source's state machine. -/

/-- One slice-loop step on a number token. -/
theorem parseSliceLoop_number (n : Nat) (start stop : Int) (hc emp : Bool)
    (s : String) (a : Int) (toks : List Tok) (h : parseIntT s = some a) :
    parseRun (n + 1) (.parseSliceLoop start stop hc emp (⟨.tNumber, s⟩ :: toks))
      = (if hc then parseRun n (.parseSliceLoop start a hc false toks)
         else parseRun n (.parseSliceLoop a stop hc false toks)) := by
  have h1 : parseRun (n + 1) (.parseSliceLoop start stop hc emp (⟨.tNumber, s⟩ :: toks))
      = (match parseIntT s with
         | none => (Filter.fnil, some (.numErr s), toks)
         | some num =>
           if hc then parseRun n (.parseSliceLoop start num hc false toks)
           else parseRun n (.parseSliceLoop num stop hc false toks)) := rfl
  rw [h1, h]

/-- One slice-loop step on a colon token. -/
theorem parseSliceLoop_colon (n : Nat) (start stop : Int) (hc emp : Bool)
    (x : String) (toks : List Tok) :
    parseRun (n + 1) (.parseSliceLoop start stop hc emp (⟨.tColon, x⟩ :: toks))
      = parseRun n (.parseSliceLoop start stop true false toks) := rfl

/-- Closing bracket, no colon seen, something seen: single index selector. -/
theorem parseSliceLoop_rbracket_index (n : Nat) (start stop : Int) (x : String)
    (toks : List Tok) :
    parseRun (n + 1) (.parseSliceLoop start stop false false (⟨.tRightBracket, x⟩ :: toks))
      = (.indexSel start, none, toks) := rfl

/-- Closing bracket, nothing seen: iterate-all selector. -/
theorem parseSliceLoop_rbracket_all (n : Nat) (start stop : Int) (x : String)
    (toks : List Tok) :
    parseRun (n + 1) (.parseSliceLoop start stop false true (⟨.tRightBracket, x⟩ :: toks))
      = (.iterAll false, none, toks) := rfl

/-- Closing bracket, colon seen: index-range selector. -/
theorem parseSliceLoop_rbracket_range (n : Nat) (start stop : Int) (x : String)
    (toks : List Tok) :
    parseRun (n + 1) (.parseSliceLoop start stop true false (⟨.tRightBracket, x⟩ :: toks))
      = (.rangeSel start stop false, none, toks) := rfl

/-- A comma with no colon seen: fall back to array construction,
re-injecting the consumed number only when it is nonzero. -/
theorem parseSliceLoop_comma_to_arrayMap (n : Nat) (start stop : Int) (emp : Bool)
    (x : String) (toks : List Tok) :
    parseRun (n + 1) (.parseSliceLoop start stop false emp (⟨.tComma, x⟩ :: toks))
      = parseRun n (.completeArrayMap
          (if start ≠ 0 then [.numLit (start : Rat)] else []) (⟨.tComma, x⟩ :: toks)) := rfl

/-- Array-construction collection skips commas. -/
theorem completeArrayMap_comma (n : Nat) (am : List Filter) (x : String) (toks : List Tok) :
    parseRun (n + 1) (.completeArrayMap am (⟨.tComma, x⟩ :: toks))
      = parseRun n (.completeArrayMap am toks) := rfl

/-- Array-construction collection ends at the closing bracket. -/
theorem completeArrayMap_rbracket (n : Nat) (am : List Filter) (x : String)
    (toks : List Tok) :
    parseRun (n + 1) (.completeArrayMap am (⟨.tRightBracket, x⟩ :: toks))
      = (.fSlice am, none, toks) := rfl

/-- Array-construction collection parses a number sub-expression via
`readOneFilter` and appends the literal. -/
theorem completeArrayMap_number (n : Nat) (am : List Filter) (s : String) (q : Rat)
    (toks : List Tok) (h : parseFloatT s = some q) :
    parseRun (n + 2) (.completeArrayMap am (⟨.tNumber, s⟩ :: toks))
      = parseRun (n + 1) (.completeArrayMap (am ++ [.numLit q]) toks) := by
  have h1 : parseRun (n + 2) (.completeArrayMap am (⟨.tNumber, s⟩ :: toks))
      = (match parseRun (n + 1) (.readOneFilter (⟨.tNumber, s⟩ :: toks)) with
         | (_, some e, toks') => (Filter.fnil, some e, toks')
         | (cursor, none, toks') =>
           match cursor with
           | .fnil => parseRun (n + 1) (.completeArrayMap am toks')
           | c' => parseRun (n + 1) (.completeArrayMap (am ++ [c']) toks')) := rfl
  have h2 : parseRun (n + 1) (.readOneFilter (⟨.tNumber, s⟩ :: toks))
      = (match parseFloatT s with
         | none => (Filter.fnil, some (.numErr s), toks)
         | some q' => (.numLit q', none, toks)) := rfl
  rw [h1, h2, h]

/-- Claim C5 corrected: on the closing bracket the dispatch is — no colon
and at least one number seen (the LAST number seen wins, conjunct 7): single
index selector; nothing seen: iterate-all; colon seen: index-range with the
omitted bounds left at 0; any other token with no colon seen: array
construction — but a consumed number is re-injected as the first element
only when it is NONZERO (conjunct 8); a consumed `0` is indistinguishable
from "no number" in the parser's state and is silently dropped (conjunct 9). -/
theorem c5_bracket_disambiguation (n : Nat) (rest : List Tok) (sa sb : String)
    (a b : Int) (qb : Rat) (ha : parseIntT sa = some a) (hb : parseIntT sb = some b)
    (hqb : parseFloatT sb = some qb) :
    parseSliceFilter (n + 2) ([⟨.tNumber, sa⟩, ⟨.tRightBracket, ""⟩] ++ rest)
      = (.indexSel a, none, rest)
  ∧ parseSliceFilter (n + 1) ([⟨.tRightBracket, ""⟩] ++ rest) = (.iterAll false, none, rest)
  ∧ parseSliceFilter (n + 4)
      ([⟨.tNumber, sa⟩, ⟨.tColon, ""⟩, ⟨.tNumber, sb⟩, ⟨.tRightBracket, ""⟩] ++ rest)
      = (.rangeSel a b false, none, rest)
  ∧ parseSliceFilter (n + 3) ([⟨.tColon, ""⟩, ⟨.tNumber, sb⟩, ⟨.tRightBracket, ""⟩] ++ rest)
      = (.rangeSel 0 b false, none, rest)
  ∧ parseSliceFilter (n + 3) ([⟨.tNumber, sa⟩, ⟨.tColon, ""⟩, ⟨.tRightBracket, ""⟩] ++ rest)
      = (.rangeSel a 0 false, none, rest)
  ∧ parseSliceFilter (n + 2) ([⟨.tColon, ""⟩, ⟨.tRightBracket, ""⟩] ++ rest)
      = (.rangeSel 0 0 false, none, rest)
  ∧ parseSliceFilter (n + 3)
      ([⟨.tNumber, sa⟩, ⟨.tNumber, sb⟩, ⟨.tRightBracket, ""⟩] ++ rest)
      = (.indexSel b, none, rest)
  ∧ (a ≠ 0 → parseSliceFilter (n + 6)
      ([⟨.tNumber, sa⟩, ⟨.tComma, ""⟩, ⟨.tNumber, sb⟩, ⟨.tRightBracket, ""⟩] ++ rest)
      = (.fSlice [.numLit (a : Rat), .numLit qb], none, rest))
  ∧ parseSliceFilter (n + 6)
      ([⟨.tNumber, "0"⟩, ⟨.tComma, ""⟩, ⟨.tNumber, sb⟩, ⟨.tRightBracket, ""⟩] ++ rest)
      = (.fSlice [.numLit qb], none, rest) := by
  refine ⟨?_, ?_, ?_, ?_, ?_, ?_, ?_, fun haz => ?_, ?_⟩
  · calc parseSliceFilter (n + 2) ([⟨.tNumber, sa⟩, ⟨.tRightBracket, ""⟩] ++ rest)
        = parseRun (n + 1) (.parseSliceLoop a 0 false false (⟨.tRightBracket, ""⟩ :: rest)) := by
          simpa using parseSliceLoop_number (n + 1) 0 0 false true sa a
            (⟨.tRightBracket, ""⟩ :: rest) ha
      _ = (.indexSel a, none, rest) := parseSliceLoop_rbracket_index n a 0 "" rest
  · exact parseSliceLoop_rbracket_all n 0 0 "" rest
  · calc parseSliceFilter (n + 4)
          ([⟨.tNumber, sa⟩, ⟨.tColon, ""⟩, ⟨.tNumber, sb⟩, ⟨.tRightBracket, ""⟩] ++ rest)
        = parseRun (n + 3) (.parseSliceLoop a 0 false false
            (⟨.tColon, ""⟩ :: ⟨.tNumber, sb⟩ :: ⟨.tRightBracket, ""⟩ :: rest)) := by
          simpa using parseSliceLoop_number (n + 3) 0 0 false true sa a
            (⟨.tColon, ""⟩ :: ⟨.tNumber, sb⟩ :: ⟨.tRightBracket, ""⟩ :: rest) ha
      _ = parseRun (n + 2) (.parseSliceLoop a 0 true false
            (⟨.tNumber, sb⟩ :: ⟨.tRightBracket, ""⟩ :: rest)) :=
          parseSliceLoop_colon (n + 2) a 0 false false ""
            (⟨.tNumber, sb⟩ :: ⟨.tRightBracket, ""⟩ :: rest)
      _ = parseRun (n + 1) (.parseSliceLoop a b true false (⟨.tRightBracket, ""⟩ :: rest)) := by
          simpa using parseSliceLoop_number (n + 1) a 0 true false sb b
            (⟨.tRightBracket, ""⟩ :: rest) hb
      _ = (.rangeSel a b false, none, rest) := parseSliceLoop_rbracket_range n a b "" rest
  · calc parseSliceFilter (n + 3)
          ([⟨.tColon, ""⟩, ⟨.tNumber, sb⟩, ⟨.tRightBracket, ""⟩] ++ rest)
        = parseRun (n + 2) (.parseSliceLoop 0 0 true false
            (⟨.tNumber, sb⟩ :: ⟨.tRightBracket, ""⟩ :: rest)) := by
          exact parseSliceLoop_colon (n + 2) 0 0 false true ""
            (⟨.tNumber, sb⟩ :: ⟨.tRightBracket, ""⟩ :: rest)
      _ = parseRun (n + 1) (.parseSliceLoop 0 b true false (⟨.tRightBracket, ""⟩ :: rest)) := by
          simpa using parseSliceLoop_number (n + 1) 0 0 true false sb b
            (⟨.tRightBracket, ""⟩ :: rest) hb
      _ = (.rangeSel 0 b false, none, rest) := parseSliceLoop_rbracket_range n 0 b "" rest
  · calc parseSliceFilter (n + 3)
          ([⟨.tNumber, sa⟩, ⟨.tColon, ""⟩, ⟨.tRightBracket, ""⟩] ++ rest)
        = parseRun (n + 2) (.parseSliceLoop a 0 false false
            (⟨.tColon, ""⟩ :: ⟨.tRightBracket, ""⟩ :: rest)) := by
          simpa using parseSliceLoop_number (n + 2) 0 0 false true sa a
            (⟨.tColon, ""⟩ :: ⟨.tRightBracket, ""⟩ :: rest) ha
      _ = parseRun (n + 1) (.parseSliceLoop a 0 true false (⟨.tRightBracket, ""⟩ :: rest)) :=
          parseSliceLoop_colon (n + 1) a 0 false false "" (⟨.tRightBracket, ""⟩ :: rest)
      _ = (.rangeSel a 0 false, none, rest) := parseSliceLoop_rbracket_range n a 0 "" rest
  · calc parseSliceFilter (n + 2) ([⟨.tColon, ""⟩, ⟨.tRightBracket, ""⟩] ++ rest)
        = parseRun (n + 1) (.parseSliceLoop 0 0 true false (⟨.tRightBracket, ""⟩ :: rest)) := by
          exact parseSliceLoop_colon (n + 1) 0 0 false true "" (⟨.tRightBracket, ""⟩ :: rest)
      _ = (.rangeSel 0 0 false, none, rest) := parseSliceLoop_rbracket_range n 0 0 "" rest
  · calc parseSliceFilter (n + 3)
          ([⟨.tNumber, sa⟩, ⟨.tNumber, sb⟩, ⟨.tRightBracket, ""⟩] ++ rest)
        = parseRun (n + 2) (.parseSliceLoop a 0 false false
            (⟨.tNumber, sb⟩ :: ⟨.tRightBracket, ""⟩ :: rest)) := by
          simpa using parseSliceLoop_number (n + 2) 0 0 false true sa a
            (⟨.tNumber, sb⟩ :: ⟨.tRightBracket, ""⟩ :: rest) ha
      _ = parseRun (n + 1) (.parseSliceLoop b 0 false false (⟨.tRightBracket, ""⟩ :: rest)) := by
          simpa using parseSliceLoop_number (n + 1) a 0 false false sb b
            (⟨.tRightBracket, ""⟩ :: rest) hb
      _ = (.indexSel b, none, rest) := parseSliceLoop_rbracket_index n b 0 "" rest
  · calc parseSliceFilter (n + 6)
          ([⟨.tNumber, sa⟩, ⟨.tComma, ""⟩, ⟨.tNumber, sb⟩, ⟨.tRightBracket, ""⟩] ++ rest)
        = parseRun (n + 5) (.parseSliceLoop a 0 false false
            (⟨.tComma, ""⟩ :: ⟨.tNumber, sb⟩ :: ⟨.tRightBracket, ""⟩ :: rest)) := by
          simpa using parseSliceLoop_number (n + 5) 0 0 false true sa a
            (⟨.tComma, ""⟩ :: ⟨.tNumber, sb⟩ :: ⟨.tRightBracket, ""⟩ :: rest) ha
      _ = parseRun (n + 4) (.completeArrayMap [.numLit (a : Rat)]
            (⟨.tComma, ""⟩ :: ⟨.tNumber, sb⟩ :: ⟨.tRightBracket, ""⟩ :: rest)) := by
          rw [parseSliceLoop_comma_to_arrayMap (n + 4) a 0 false ""
            (⟨.tNumber, sb⟩ :: ⟨.tRightBracket, ""⟩ :: rest), if_pos haz]
      _ = parseRun (n + 3) (.completeArrayMap [.numLit (a : Rat)]
            (⟨.tNumber, sb⟩ :: ⟨.tRightBracket, ""⟩ :: rest)) :=
          completeArrayMap_comma (n + 3) _ "" _
      _ = parseRun (n + 2) (.completeArrayMap [.numLit (a : Rat), .numLit qb]
            (⟨.tRightBracket, ""⟩ :: rest)) := by
          simpa using completeArrayMap_number (n + 1) [.numLit (a : Rat)] sb qb
            (⟨.tRightBracket, ""⟩ :: rest) hqb
      _ = (.fSlice [.numLit (a : Rat), .numLit qb], none, rest) :=
          completeArrayMap_rbracket (n + 1) _ "" rest
  · calc parseSliceFilter (n + 6)
          ([⟨.tNumber, "0"⟩, ⟨.tComma, ""⟩, ⟨.tNumber, sb⟩, ⟨.tRightBracket, ""⟩] ++ rest)
        = parseRun (n + 5) (.parseSliceLoop 0 0 false false
            (⟨.tComma, ""⟩ :: ⟨.tNumber, sb⟩ :: ⟨.tRightBracket, ""⟩ :: rest)) := by
          simpa using parseSliceLoop_number (n + 5) 0 0 false true "0" 0
            (⟨.tComma, ""⟩ :: ⟨.tNumber, sb⟩ :: ⟨.tRightBracket, ""⟩ :: rest) rfl
      _ = parseRun (n + 4) (.completeArrayMap []
            (⟨.tComma, ""⟩ :: ⟨.tNumber, sb⟩ :: ⟨.tRightBracket, ""⟩ :: rest)) := by
          rw [parseSliceLoop_comma_to_arrayMap (n + 4) 0 0 false ""
            (⟨.tNumber, sb⟩ :: ⟨.tRightBracket, ""⟩ :: rest)]
          norm_num
      _ = parseRun (n + 3) (.completeArrayMap []
            (⟨.tNumber, sb⟩ :: ⟨.tRightBracket, ""⟩ :: rest)) :=
          completeArrayMap_comma (n + 3) _ "" _
      _ = parseRun (n + 2) (.completeArrayMap [.numLit qb] (⟨.tRightBracket, ""⟩ :: rest)) := by
          simpa using completeArrayMap_number (n + 1) [] sb qb
            (⟨.tRightBracket, ""⟩ :: rest) hqb
      _ = (.fSlice [.numLit qb], none, rest) := completeArrayMap_rbracket (n + 1) _ "" rest

/-- Concrete instance of `c5_bracket_disambiguation`: `[2]` is the index
selector 2, and `[2, 3]` is the array construction `[2, 3]`. -/
theorem c5_bracket_witness :
    parseIntT "2" = some 2 ∧ parseFloatT "3" = some 3 ∧ ((2 : Int) ≠ 0)
  ∧ parseSliceFilter 2 [⟨.tNumber, "2"⟩, ⟨.tRightBracket, ""⟩] = (.indexSel 2, none, [])
  ∧ parseSliceFilter 6
      [⟨.tNumber, "2"⟩, ⟨.tComma, ""⟩, ⟨.tNumber, "3"⟩, ⟨.tRightBracket, ""⟩]
      = (.fSlice [.numLit 2, .numLit 3], none, []) := by
  have h := c5_bracket_disambiguation 0 [] "2" "3" 2 3 3 rfl rfl rfl
  exact ⟨rfl, rfl, by decide, h.1, h.2.2.2.2.2.2.2.1 (by decide)⟩

/-- Claim C5's "the number already consumed is re-injected as the first
element" is false when that number is 0: `[0, 1]` parses to the
one-element array construction `[1]`, dropping the 0. -/
theorem c5_counterexample :
    parseSliceFilter 20
      [⟨.tNumber, "0"⟩, ⟨.tComma, ""⟩, ⟨.tNumber, "1"⟩, ⟨.tRightBracket, ""⟩]
      = (.fSlice [.numLit 1], none, [])
  ∧ Filter.fSlice [.numLit 1] ≠ Filter.fSlice [.numLit 0, .numLit 1] :=
  ⟨rfl, by simp⟩

end QriValue
